import Mathlib

/-!
Verification of the pixel-format descriptor model in `details.py`.

The source is Python 2 code built around two classes:

* `PixelPlaneFormat`, a namedtuple `(span, channels, subsampling)` with a
  two-grammar channel-layout parser (`_parse_layout`), a shape normaliser
  (`_parse_plane` / `from_description`), `bits_per_sample` and a derivable
  single-plane `name`;
* `PixelFormat`, a tuple of planes with a registry of named formats, a YUV
  shorthand parser (`_parse_yuv_name`), a packed-to-planar transform
  (`_make_planar`), YUV name synthesis (`_make_yuv_name`), name derivation and
  `bits_per_pixel`.

We model Python values with an inductive `PyVal`.  Python's `==` on the values
involved (ints, floats, strings, tuples, lists, namedtuples) is equality of a
canonical form `canon` mapping ints and floats to rationals and namedtuples to
plain tuples (a namedtuple compares equal to the plain tuple of its fields, and
`2 == 2.0` holds in Python).  Exceptions are modelled with `Except`; numbers
with `Int`/`ℚ` (Python 2 floats for the single-digit ratios appearing here are
exact, and no claim distinguishes binary floats from rationals).

Deliberate modelling notes, stated once here and at the definitions involved:
* dict iteration order: the Python 2 source iterates class-level dicts in hash
  order; we model dicts as insertion-ordered association lists.  No claim
  depends on the iteration order (scans below either find a unique match or no
  match).
* `eval` of the canonical textual form (the branch for strings that start with
  "(" in `_parse_description`) is not modelled; it is mapped to a dedicated
  error value and no claim exercises that branch.
* the `_bpp` memoisation dict only caches a pure function of the format and is
  observationally transparent; `bits_per_pixel` is modelled as the pure
  function.
* places where the Python code would raise an uncaught TypeError/IndexError on
  malformed in-memory values (noted at each definition) are modelled as `none`;
  no claim exercises them.
-/

/-- Errors of the top-level parse: `MalformedPlaneFormat`, the TypeError raised
by `raise NotImplemented(...)` in `_parse_yuv_name` (the constant
`NotImplemented` is not callable, so Python raises a TypeError instead of a
NotImplementedError), the ZeroDivisionError of `float(luma)/chroma` when the
first-row chroma count is 0, the IndexError of `description[0]` on an empty
string, and the unmodelled eval branch for canonical textual forms. -/
inductive PErr where
  | malformed
  | typeErrorNotCallable
  | zeroDivision
  | indexError
  | evalUnmodelled
deriving DecidableEq, Repr

/-- Python values appearing in plane/format descriptions: ints, floats
(as exact rationals), strings, tuples, lists and `PixelPlaneFormat` instances
(a namedtuple with fields span, channels, subsampling). -/
inductive PyVal where
  | int (n : Int)
  | float (q : ℚ)
  | str (s : String)
  | tuple (xs : List PyVal)
  | list (xs : List PyVal)
  | plane (span channels subsampling : PyVal)

/-- Canonical forms for Python `==`: numbers collapse int/float, a
`PixelPlaneFormat` compares like the plain 3-tuple of its fields. -/
inductive CVal where
  | num (q : ℚ)
  | str (s : String)
  | tuple (xs : List CVal)
  | list (xs : List CVal)

mutual

def PyVal.decEq : (a b : PyVal) → Decidable (a = b)
  | .int a, .int b =>
    match inferInstanceAs (Decidable (a = b)) with
    | isTrue h => isTrue (by rw [h])
    | isFalse h => isFalse (fun hh => h (PyVal.int.inj hh))
  | .float a, .float b =>
    match inferInstanceAs (Decidable (a = b)) with
    | isTrue h => isTrue (by rw [h])
    | isFalse h => isFalse (fun hh => h (PyVal.float.inj hh))
  | .str a, .str b =>
    match inferInstanceAs (Decidable (a = b)) with
    | isTrue h => isTrue (by rw [h])
    | isFalse h => isFalse (fun hh => h (PyVal.str.inj hh))
  | .tuple xs, .tuple ys =>
    match PyVal.decEqList xs ys with
    | isTrue h => isTrue (by rw [h])
    | isFalse h => isFalse (fun hh => h (PyVal.tuple.inj hh))
  | .list xs, .list ys =>
    match PyVal.decEqList xs ys with
    | isTrue h => isTrue (by rw [h])
    | isFalse h => isFalse (fun hh => h (PyVal.list.inj hh))
  | .plane a b c, .plane d e f =>
    match PyVal.decEq a d, PyVal.decEq b e, PyVal.decEq c f with
    | isTrue h1, isTrue h2, isTrue h3 => isTrue (by rw [h1, h2, h3])
    | isFalse h1, _, _ => isFalse (fun hh => h1 (PyVal.plane.inj hh).1)
    | _, isFalse h2, _ => isFalse (fun hh => h2 (PyVal.plane.inj hh).2.1)
    | _, _, isFalse h3 => isFalse (fun hh => h3 (PyVal.plane.inj hh).2.2)
  | .int _, .float _ => isFalse nofun
  | .int _, .str _ => isFalse nofun
  | .int _, .tuple _ => isFalse nofun
  | .int _, .list _ => isFalse nofun
  | .int _, .plane _ _ _ => isFalse nofun
  | .float _, .int _ => isFalse nofun
  | .float _, .str _ => isFalse nofun
  | .float _, .tuple _ => isFalse nofun
  | .float _, .list _ => isFalse nofun
  | .float _, .plane _ _ _ => isFalse nofun
  | .str _, .int _ => isFalse nofun
  | .str _, .float _ => isFalse nofun
  | .str _, .tuple _ => isFalse nofun
  | .str _, .list _ => isFalse nofun
  | .str _, .plane _ _ _ => isFalse nofun
  | .tuple _, .int _ => isFalse nofun
  | .tuple _, .float _ => isFalse nofun
  | .tuple _, .str _ => isFalse nofun
  | .tuple _, .list _ => isFalse nofun
  | .tuple _, .plane _ _ _ => isFalse nofun
  | .list _, .int _ => isFalse nofun
  | .list _, .float _ => isFalse nofun
  | .list _, .str _ => isFalse nofun
  | .list _, .tuple _ => isFalse nofun
  | .list _, .plane _ _ _ => isFalse nofun
  | .plane _ _ _, .int _ => isFalse nofun
  | .plane _ _ _, .float _ => isFalse nofun
  | .plane _ _ _, .str _ => isFalse nofun
  | .plane _ _ _, .tuple _ => isFalse nofun
  | .plane _ _ _, .list _ => isFalse nofun

def PyVal.decEqList : (xs ys : List PyVal) → Decidable (xs = ys)
  | [], [] => isTrue rfl
  | [], _ :: _ => isFalse nofun
  | _ :: _, [] => isFalse nofun
  | x :: xs, y :: ys =>
    match PyVal.decEq x y, PyVal.decEqList xs ys with
    | isTrue h1, isTrue h2 => isTrue (by rw [h1, h2])
    | isFalse h1, _ => isFalse (fun hh => h1 (List.cons.inj hh).1)
    | _, isFalse h2 => isFalse (fun hh => h2 (List.cons.inj hh).2)

end

instance : DecidableEq PyVal := PyVal.decEq

mutual

def CVal.decEq : (a b : CVal) → Decidable (a = b)
  | .num a, .num b =>
    match inferInstanceAs (Decidable (a = b)) with
    | isTrue h => isTrue (by rw [h])
    | isFalse h => isFalse (fun hh => h (CVal.num.inj hh))
  | .str a, .str b =>
    match inferInstanceAs (Decidable (a = b)) with
    | isTrue h => isTrue (by rw [h])
    | isFalse h => isFalse (fun hh => h (CVal.str.inj hh))
  | .tuple xs, .tuple ys =>
    match CVal.decEqList xs ys with
    | isTrue h => isTrue (by rw [h])
    | isFalse h => isFalse (fun hh => h (CVal.tuple.inj hh))
  | .list xs, .list ys =>
    match CVal.decEqList xs ys with
    | isTrue h => isTrue (by rw [h])
    | isFalse h => isFalse (fun hh => h (CVal.list.inj hh))
  | .num _, .str _ => isFalse nofun
  | .num _, .tuple _ => isFalse nofun
  | .num _, .list _ => isFalse nofun
  | .str _, .num _ => isFalse nofun
  | .str _, .tuple _ => isFalse nofun
  | .str _, .list _ => isFalse nofun
  | .tuple _, .num _ => isFalse nofun
  | .tuple _, .str _ => isFalse nofun
  | .tuple _, .list _ => isFalse nofun
  | .list _, .num _ => isFalse nofun
  | .list _, .str _ => isFalse nofun
  | .list _, .tuple _ => isFalse nofun

def CVal.decEqList : (xs ys : List CVal) → Decidable (xs = ys)
  | [], [] => isTrue rfl
  | [], _ :: _ => isFalse nofun
  | _ :: _, [] => isFalse nofun
  | x :: xs, y :: ys =>
    match CVal.decEq x y, CVal.decEqList xs ys with
    | isTrue h1, isTrue h2 => isTrue (by rw [h1, h2])
    | isFalse h1, _ => isFalse (fun hh => h1 (List.cons.inj hh).1)
    | _, isFalse h2 => isFalse (fun hh => h2 (List.cons.inj hh).2)

end

instance : DecidableEq CVal := CVal.decEq

mutual

def canon : PyVal → CVal
  | .int n => .num (n : ℚ)
  | .float q => .num q
  | .str s => .str s
  | .tuple xs => .tuple (canonList xs)
  | .list xs => .list (canonList xs)
  | .plane a b c => .tuple [canon a, canon b, canon c]

def canonList : List PyVal → List CVal
  | [] => []
  | x :: xs => canon x :: canonList xs

end

/-- Python `==` on the values of this model. -/
def pyEq (a b : PyVal) : Bool :=
  canon a == canon b

/-- Python `type(x) == int`. -/
def isIntV : PyVal → Bool
  | .int _ => true
  | _ => false

/-- Python `type(x) == str`. -/
def isStrV : PyVal → Bool
  | .str _ => true
  | _ => false

/-- Python `type(x) == tuple` (exact type: a `PixelPlaneFormat` instance is a
tuple subclass, so it does not pass this check). -/
def isTupleV : PyVal → Bool
  | .tuple _ => true
  | _ => false

/-- Python `type(x) in (int, float)`. -/
def isNumV : PyVal → Bool
  | .int _ => true
  | .float _ => true
  | _ => false

/-- Decidable equality for `Except`, needed to state and decide results of the
fallible operations below. -/
def exceptDecEq {e a : Type} [DecidableEq e] [DecidableEq a] :
    (x y : Except e a) → Decidable (x = y)
  | .ok u, .ok v =>
    match inferInstanceAs (Decidable (u = v)) with
    | isTrue h => isTrue (by rw [h])
    | isFalse h => isFalse (fun hh => h (Except.ok.inj hh))
  | .error u, .error v =>
    match inferInstanceAs (Decidable (u = v)) with
    | isTrue h => isTrue (by rw [h])
    | isFalse h => isFalse (fun hh => h (Except.error.inj hh))
  | .ok _, .error _ => isFalse nofun
  | .error _, .ok _ => isFalse nofun

instance {e a : Type} [DecidableEq e] [DecidableEq a] : DecidableEq (Except e a) :=
  exceptDecEq

/-- Left-to-right traversal with `Option`, mirroring a Python loop that
returns `None` on the first failing element. -/
def optList {a b : Type} (f : a → Option b) : List a → Option (List b)
  | [] => some []
  | x :: xs =>
    match f x, optList f xs with
    | some y, some ys => some (y :: ys)
    | _, _ => none

/-- Left-to-right traversal with `Except`, mirroring a Python loop that lets
the first exception propagate. -/
def exceptList {e a b : Type} (f : a → Except e b) : List a → Except e (List b)
  | [] => .ok []
  | x :: xs =>
    match f x with
    | .error err => .error err
    | .ok y =>
      match exceptList f xs with
      | .error err => .error err
      | .ok ys => .ok (y :: ys)

/-! ## Channel layout parsing (`PixelPlaneFormat._parse_layout`)

A channel map is a dict mapping single-letter channel names to tuples of
`(offset, width)` fragments; we carry the typed form
`List (String × List (Int × Int))` (insertion-ordered, as noted above) and
convert to `PyVal` when it is stored in a plane. -/

/-- Typed channel map: name to ordered fragment list. -/
abbrev CMap := List (String × List (Int × Int))

def fragVal (fr : Int × Int) : PyVal :=
  .tuple [.int fr.1, .int fr.2]

def chEntryVal (e : String × List (Int × Int)) : PyVal :=
  .tuple [.str e.1, .tuple (e.2.map fragVal)]

/-- The `PyVal` form of a parsed channel map: `tuple(d.items())` with each
fragment list a tuple. -/
def chToVal (chs : CMap) : PyVal :=
  .tuple (chs.map chEntryVal)

/-- Head-is-a-digit test used by the scans below. -/
def headDigit : List Char → Bool
  | c :: _ => c.isDigit
  | [] => false

/-- `_layput_pattern1.match(s)`: the regex `(?:[a-zA-Z]\d+)+` anchored at the
start only (Python `re.match` is a prefix match), which succeeds exactly when
the string begins with a letter followed by a digit. -/
def pat1Match : List Char → Bool
  | a :: b :: _ => a.isAlpha && b.isDigit
  | _ => false

/-- Fuel-driven scan for `findall1` (each step consumes at least one
character, so fuel equal to the length of the list suffices); structural
recursion keeps it kernel-reducible. -/
def findall1Go : Nat → List Char → List (Char × List Char)
  | 0, _ => []
  | _ + 1, [] => []
  | fuel + 1, a :: rest =>
    if a.isAlpha && headDigit rest then
      let ds := rest.takeWhile Char.isDigit
      (a, ds) :: findall1Go fuel (rest.drop ds.length)
    else
      findall1Go fuel rest

/-- `_find_pattern1.findall(s)`: all non-overlapping matches of
`([a-zA-Z])(\d+)` anywhere in the string, left to right, digit runs maximal. -/
def findall1 (s : List Char) : List (Char × List Char) :=
  findall1Go s.length s

/-- `_layput_pattern2.match(s)`: the regex `([a-zA-Z]+)(\d+)` as a prefix
match; since letters and digits are disjoint there is no backtracking, so the
groups are the maximal letter run from the start and the maximal digit run
right after it, both required nonempty. -/
def pat2Match (s : List Char) : Option (List Char × List Char) :=
  let names := s.takeWhile Char.isAlpha
  let digits := (s.drop names.length).takeWhile Char.isDigit
  if names.isEmpty || digits.isEmpty then none else some (names, digits)

/-- Python `int` of a digit run (digits only, as produced by the scans). -/
def digitsToInt (ds : List Char) : Int :=
  ds.foldl (fun a c => a * 10 + ((c.toNat : Int) - ('0'.toNat : Int))) 0

/-- One step of the dict accumulation in `_parse_layout`: a repeated channel
letter appends a fragment to its entry, a new letter appends a new entry
(insertion-ordered dict model). -/
def addChannel (d : CMap) (nm : String) (fr : Int × Int) : CMap :=
  if d.any (fun e => e.1 = nm) then
    d.map (fun e => if e.1 = nm then (e.1, e.2 ++ [fr]) else e)
  else
    d ++ [(nm, [fr])]

/-- The running-cursor loop of `_parse_layout`: offsets accumulate widths in
encounter order starting at 0. -/
def buildMap (pos : Int) (d : CMap) : List (String × Int) → CMap
  | [] => d
  | (nm, w) :: rest => buildMap (pos + w) (addChannel d nm (pos, w)) rest

/-- `_parse_layout` on a string token.  Grammar 1 (prefix match, pairs
collected from the whole string) is tried first, then grammar 2 (prefix match,
positional zip, equal run lengths required); `.error ()` is the raise of
`MalformedPlaneFormat("invalid channel layout: ...")`. -/
def parseLayoutStr (s : String) : Except Unit CMap :=
  if pat1Match s.data then
    .ok (buildMap 0 [] ((findall1 s.data).map
      (fun p => (String.mk [p.1], digitsToInt p.2))))
  else
    match pat2Match s.data with
    | some (names, digits) =>
      if names.length ≠ digits.length then .error ()
      else
        .ok (buildMap 0 [] ((names.zip digits).map
          (fun p => (String.mk [p.1], digitsToInt [p.2]))))
    | none => .error ()

/-- `_parse_layout` on an arbitrary layout value: a tuple passes through
verbatim (no validation), a string is parsed, anything else returns `None`
(`.ok none`), which the caller turns into `MalformedPlaneFormat`. -/
def parseLayoutVal : PyVal → Except Unit (Option PyVal)
  | .tuple xs => .ok (some (.tuple xs))
  | .str s =>
    match parseLayoutStr s with
    | .ok chs => .ok (some (chToVal chs))
    | .error e => .error e
  | _ => .ok none

/-! ## Plane parsing (`PixelPlaneFormat._parse_plane` / `from_description`) -/

/-- `_parse_plane`: normalise a plane description to `(span, layout,
subsampling)` and parse the layout.  `.ok none` models the Python `return
None` paths, `.error ()` the `MalformedPlaneFormat` raised by the layout
parser; `from_description` turns both into `MalformedPlaneFormat`.  A
`PixelPlaneFormat` instance is returned unchanged (`type(x) == cls`). -/
def parsePlane (x : PyVal) : Except Unit (Option PyVal) :=
  match x with
  | .plane a b c => .ok (some (.plane a b c))
  | _ =>
    let t? : Option (PyVal × PyVal × PyVal) :=
      match x with
      | .str s => some (.int 1, .str s, .tuple [.int 1, .int 1])
      | .tuple [a, b, c] => some (a, b, c)
      | .tuple [a, b] =>
        if isIntV a && (isStrV b || isTupleV b) then
          some (a, b, .tuple [.int 1, .int 1])
        else if (isStrV a || isTupleV a) &&
            (match b with
             | .tuple [u, v] => isNumV u && isNumV v
             | _ => false) then
          some (.int 1, a, b)
        else none
      | _ => none
    match t? with
    | none => .ok none
    | some (n, layout, sub) =>
      if !isIntV n ||
          !(match sub with
            | .tuple [_, _] => true
            | _ => false) then
        .ok none
      else
        match parseLayoutVal layout with
        | .error e => .error e
        | .ok none => .ok none
        | .ok (some channels) => .ok (some (.plane n channels sub))

/-- `PixelPlaneFormat.from_description`: raises `MalformedPlaneFormat` when
`_parse_plane` returns `None`. -/
def fromDescription (x : PyVal) : Except Unit PyVal :=
  match parsePlane x with
  | .error e => .error e
  | .ok none => .error ()
  | .ok (some p) => .ok p

/-! ## YUV shorthand parsing (`PixelFormat._parse_yuv_name`) -/

/-- Python's `\s` on ASCII input. -/
def isPySpace (c : Char) : Bool :=
  c == ' ' || c == '\t' || c == '\n' || c == '\r' ||
    c == Char.ofNat 11 || c == Char.ofNat 12

def digNat (c : Char) : Nat :=
  c.toNat - '0'.toNat

/-- `_yuv_pattern.match(name)`: the regex `yuv\s?(\d):?(\d):?(\d)p?` with
`re.I`, anchored at the start only.  The optional pieces cannot steal a digit
(a space or colon is never a digit), so greedy matching without backtracking
is exact; the trailing `p?` and any trailing junk do not affect the groups and
are not inspected. -/
def yuvMatch (s : List Char) : Option (Nat × Nat × Nat) :=
  match s with
  | c1 :: c2 :: c3 :: rest =>
    if c1.toLower == 'y' && c2.toLower == 'u' && c3.toLower == 'v' then
      let r0 := match rest with
        | c :: r => if isPySpace c then r else rest
        | [] => rest
      match r0 with
      | a :: r1 =>
        if a.isDigit then
          let r1' := match r1 with
            | c :: r => if c == ':' then r else r1
            | [] => r1
          match r1' with
          | b :: r2 =>
            if b.isDigit then
              let r2' := match r2 with
                | c :: r => if c == ':' then r else r2
                | [] => r2
              match r2' with
              | c :: _ => if c.isDigit then some (digNat a, digNat b, digNat c) else none
              | [] => none
            else none
          | [] => none
        else none
      | [] => none
    else none
  | _ => none

/-- `_parse_yuv_name`: on a match, horizontal subsampling is
`float(d1)/d2` (ZeroDivisionError when `d2 = 0`, raised before the row check)
run through `int(x) if x == round(x) else x`, i.e. an int exactly when `d2`
divides `d1` (stated through divisibility so the kernel can evaluate it),
vertical subsampling is 2 when `d3 = 0`, 1 when `d3 = d2`, and otherwise the
code executes `raise NotImplemented(...)`, which in Python raises a TypeError
because `NotImplemented` is not callable.  The synthetic description is
`('y8', ('u8', sub), ('v8', sub))`. -/
def parseYuvName (s : String) : Except PErr (Option PyVal) :=
  match yuvMatch s.data with
  | none => .ok none
  | some (d1, d2, d3) =>
    if d2 = 0 then .error .zeroDivision
    else
      let hsub : PyVal :=
        if (d1 : Int) % (d2 : Int) = 0 then .int ((d1 : Int) / (d2 : Int))
        else .float ((d1 : ℚ) / (d2 : ℚ))
      match (if d3 = 0 then some 2 else if d3 = d2 then some 1 else none :
          Option Int) with
      | none => .error .typeErrorNotCallable
      | some vsub =>
        let sub := PyVal.tuple [hsub, .int vsub]
        .ok (some (.tuple [.str "y8", .tuple [.str "u8", sub],
          .tuple [.str "v8", sub]]))

/-! ## Multi-plane assembly (`_parse_planes`, `_make_planar`,
`_parse_description`, `__new__`) -/

/-- `_parse_planes`: first try the whole value as a single plane; on
`MalformedPlaneFormat` parse each element as its own plane, propagating the
first failure. -/
def parsePlanesM (whole : PyVal) (xs : List PyVal) : Except PErr (List PyVal) :=
  match fromDescription whole with
  | .ok p => .ok [p]
  | .error _ =>
    match exceptList fromDescription xs with
    | .ok ps => .ok ps
    | .error _ => .error .malformed

/-- Strict view of a stored channel map, used by the iterations in
`bits_per_sample`, `name`, `_make_planar` and `__repr__`.  Where this returns
`none` on a shape the Python iteration would raise an uncaught
TypeError/ValueError; parsed planes always have this exact shape, and no claim
exercises the mismatch. -/
def asFrag : PyVal → Option (Int × Int)
  | .tuple [.int a, .int b] => some (a, b)
  | _ => none

def asFrags : PyVal → Option (List (Int × Int))
  | .tuple xs => optList asFrag xs
  | _ => none

def asChannelEntry : PyVal → Option (String × List (Int × Int))
  | .tuple [.str nm, fr] => (asFrags fr).map (fun l => (nm, l))
  | _ => none

def asChannelMap : PyVal → Option CMap
  | .tuple xs => optList asChannelEntry xs
  | _ => none

/-- Python `<=` on ASCII strings (byte-wise lexicographic). -/
def charsLe : List Char → List Char → Bool
  | [], _ => true
  | _ :: _, [] => false
  | a :: as, b :: bs => if a = b then charsLe as bs else a < b

def strLe (a b : String) : Bool :=
  charsLe a.data b.data

/-- Python `<=` on the `(fragment, name)` pairs sorted by `_make_planar`:
lexicographic on the `(start, width)` int pair, then on the name. -/
def pairLe (a b : (Int × Int) × String) : Bool :=
  if a.1.1 ≠ b.1.1 then a.1.1 < b.1.1
  else if a.1.2 ≠ b.1.2 then a.1.2 < b.1.2
  else strLe a.2 b.2

/-- `_make_planar`: requires exactly one plane (the `assert`), flattens the
channel map to `(fragment, name)` pairs, sorts them, and emits one
single-channel plane per fragment with the channel re-based to offset 0,
preserving span and subsampling.  Python's sort is stable, but elements with
equal keys are equal pairs here, so a plain insertion sort produces the same
list. -/
def makePlanar (t : List PyVal) : Option (List PyVal) :=
  match t with
  | [.plane n channels sub] =>
    match asChannelMap channels with
    | some chs =>
      let pairs := (chs.map (fun e => e.2.map (fun fr => (fr, e.1)))).flatten
      let sorted := List.insertionSort (fun a b => pairLe a b = true) pairs
      some (sorted.map (fun pr =>
        PyVal.plane n (chToVal [(pr.2, [(0, pr.1.2)])]) sub))
    | none => none
  | _ => none

/-- `_parse_description`.  For a string: YUV shorthand first; then the
canonical-textual-form branch for strings in parentheses (the source uses a
restricted `eval` there; unmodelled, see the header); then the trailing
`p`/`P` strip with `_make_planar` applied to the single-plane parse of the
rest; otherwise a single plane.  Tuples and lists go through `_parse_planes`;
anything else is parsed as a single plane.  `description[0]` on the empty
string raises IndexError. -/
def parseDescription (d : PyVal) : Except PErr (List PyVal) :=
  match d with
  | .str s =>
    match parseYuvName s with
    | .error e => .error e
    | .ok (some desc) =>
      match desc with
      | .tuple xs => parsePlanesM desc xs
      | _ => .error .malformed
    | .ok none =>
      match s.data with
      | [] => .error .indexError
      | c :: cs =>
        if c = '(' && (c :: cs).getLast (by simp) = ')' then
          .error .evalUnmodelled
        else if ((c :: cs).getLast (by simp)).toLower = 'p' then
          match fromDescription (.str (String.mk ((c :: cs).dropLast))) with
          | .error _ => .error .malformed
          | .ok p =>
            match makePlanar [p] with
            | some ps => .ok ps
            | none => .error .malformed
        else
          match fromDescription (.str s) with
          | .ok p => .ok [p]
          | .error _ => .error .malformed
  | .tuple xs => parsePlanesM (.tuple xs) xs
  | .list xs => parsePlanesM (.list xs) xs
  | other =>
    match fromDescription other with
    | .ok p => .ok [p]
    | .error _ => .error .malformed

/-- The `_named_formats` table, raw author-supplied descriptions (the
commented-out entries of the source are omitted there too).  Modelled as an
insertion-ordered association list in source order; the Python 2 dict iterates
in hash order, on which no claim depends. -/
def initialFormats : List (String × PyVal) :=
  [("rgb", .str "r8g8b8"),
   ("xrgb", .str "x8r8g8b8"),
   ("rgba", .str "r8g8b8a8"),
   ("gray8", .str "y8"),
   ("monowhite", .str "k1"),
   ("monoblack", .str "y1"),
   ("pal8", .str "i8"),
   ("uyvy422", .tuple [.int 2, .str "u8y8v8y8"]),
   ("yuyv422", .tuple [.int 2, .str "y8u8y8v8"]),
   ("uyyvyy411", .tuple [.int 4, .str "u8y8y8v8y8y8"]),
   ("yuva420p", .tuple [.str "y8",
      .tuple [.str "u8", .tuple [.int 2, .int 2]],
      .tuple [.str "v8", .tuple [.int 2, .int 2]],
      .str "a8"]),
   ("nv12", .tuple [.str "y8",
      .tuple [.str "u8v8", .tuple [.int 2, .int 2]]]),
   ("nv21", .tuple [.str "y8",
      .tuple [.str "v8u8", .tuple [.int 2, .int 2]]])]

/-- In-place rewrite of a registry entry (`cls._named_formats[k] = planes`). -/
def regUpdate (reg : List (String × PyVal)) (k : String) (v : PyVal) :
    List (String × PyVal) :=
  reg.map (fun kv => if kv.1 = k then (k, v) else kv)

/-- `PixelFormat.__new__`: a string found in the registry has its stored
description substituted, parsed, and the entry rewritten in place with the
normalised plane tuple; on a parse failure the exception propagates before the
rewrite.  Everything else goes through `_parse_description` and leaves the
registry untouched.  Returns the plane tuple together with the registry
state. -/
def pfNew (reg : List (String × PyVal)) (d : PyVal) :
    Except PErr (List PyVal × List (String × PyVal)) :=
  match d with
  | .str s =>
    match reg.lookup s with
    | some x =>
      match parseDescription x with
      | .ok ps => .ok (ps, regUpdate reg s (.tuple ps))
      | .error e => .error e
    | none =>
      match parseDescription d with
      | .ok ps => .ok (ps, reg)
      | .error e => .error e
  | _ =>
    match parseDescription d with
    | .ok ps => .ok (ps, reg)
    | .error e => .error e

/-! ## Derived properties (`bits_per_sample`, `bits_per_pixel`,
`is_planar`, `plane_count`) -/

/-- Sum of all fragment widths of a typed channel map
(`bits_per_sample`). -/
def cmapBits (chs : CMap) : ℚ :=
  (chs.map (fun e => (e.2.map (fun fr => ((fr.2 : Int) : ℚ))).sum)).sum

/-- Python numeric view of a span or subsampling entry. -/
def asNumV : PyVal → Option ℚ
  | .int n => some (n : ℚ)
  | .float q => some q
  | _ => none

/-- The per-plane pieces of `bits_per_pixel`: `bits_per_sample` and the
divisor `n * x * y` from `plane_total /= n * (lambda x, y: x*y)(*subsampling)`
(exactly two subsampling entries required by the unpacking). -/
def planeBitsData (p : PyVal) : Option (ℚ × ℚ) :=
  match p with
  | .plane n channels sub =>
    match asChannelMap channels, asNumV n, sub with
    | some chs, some nq, .tuple [sx, sy] =>
      match asNumV sx, asNumV sy with
      | some qx, some qy => some (cmapBits chs, nq * (qx * qy))
      | _, _ => none
    | _, _, _ => none
  | _ => none

/-- `bits_per_pixel` as the pure sum it caches: for each plane,
`bits_per_sample / (span * x * y)`.  In Python a zero divisor raises
ZeroDivisionError; here rational division by zero yields zero (no claim
divides by zero). -/
def bitsPerPixel : List PyVal → Option ℚ
  | [] => some 0
  | p :: rest =>
    match planeBitsData p, bitsPerPixel rest with
    | some (b, d), some t => some (b / d + t)
    | _, _ => none

/-- `is_planar = len(self) > 1`. -/
def isPlanar (f : List PyVal) : Bool :=
  decide (1 < f.length)

/-- `plane_count = len(self)`. -/
def planeCount (f : List PyVal) : Nat :=
  f.length

/-! ## Single-plane name (`PixelPlaneFormat.name`) -/

/-- Lexicographic order on fragment lists (Python tuple comparison of the
`pos` field). -/
def fragLt (a b : Int × Int) : Bool :=
  a.1 < b.1 || (a.1 = b.1 && a.2 < b.2)

def fragsLt : List (Int × Int) → List (Int × Int) → Bool
  | [], [] => false
  | [], _ :: _ => true
  | _ :: _, [] => false
  | a :: as, b :: bs => fragLt a b || (a = b && fragsLt as bs)

/-- Python `<=` on the `(pos, name)` pairs sorted by `PixelPlaneFormat.name`. -/
def pnLe (a b : List (Int × Int) × String) : Bool :=
  fragsLt a.1 b.1 || (a.1 = b.1 && strLe a.2 b.2)

/-- The accumulation loop of `PixelPlaneFormat.name`: channels in offset
order must each have exactly one fragment, contiguous from offset 0; the
result is the concatenation of `name` and width.  A failed check sets the
result to `None`; an empty final string is falsy in Python, so it also yields
`None`.  (An empty fragment list would raise an IndexError at `pos[0]` in the
source; parsed planes never produce one, and no claim exercises it.) -/
def planeNameGo (i : Int) (acc : String) :
    List (List (Int × Int) × String) → Option String
  | [] => if acc = "" then none else some acc
  | (pos, nm) :: rest =>
    match pos with
    | [(st, w)] =>
      if st ≠ i then none
      else planeNameGo (i + w) (acc ++ nm ++ toString w) rest
    | _ => none

/-- `PixelPlaneFormat.name`: derivable only when `span == 1` and
`subsampling == (1,1)` (Python `==`, so float 1.0 qualifies). -/
def planeName (p : PyVal) : Option String :=
  match p with
  | .plane n channels sub =>
    if pyEq n (.int 1) && pyEq sub (.tuple [.int 1, .int 1]) then
      match asChannelMap channels with
      | some chs =>
        planeNameGo 0 ""
          (List.insertionSort (fun a b => pnLe a b = true)
            (chs.map (fun e => (e.2, e.1))))
      | none => none
    else none
  | _ => none

/-! ## YUV name synthesis (`PixelFormat._make_yuv_name`) -/

/-- Python `needle in hay` substring test. -/
def strIn (needle hay : String) : Bool :=
  hay.data.tails.any (fun t => needle.data.isPrefixOf t)

/-- Python `str.lower()` on the ASCII names appearing here. -/
def strLower (s : String) : String :=
  String.mk (s.data.map Char.toLower)

/-- The per-plane checks of `_make_yuv_name`: exactly one channel, exactly
one fragment, starting at offset 0 with width 8 (Python `==`), lowercased
name a substring of "yuv"; yields `(name, subsampling)`.  Shapes on which the
Python unpacking would raise are `none` (unexercised by claims). -/
def yuvComponent (p : PyVal) : Option (String × PyVal) :=
  match p with
  | .plane _ channels sub =>
    match channels with
    | .tuple [.tuple [.str nm, pos]] =>
      let nml := strLower nm
      match pos with
      | .tuple [.tuple [st, w]] =>
        if pyEq st (.int 0) && pyEq w (.int 8) then
          if strIn nml "yuv" then some (nml, sub) else none
        else none
      | _ => none
    | _ => none
  | _ => none

/-- `_make_yuv_name`.  Only planar formats; every plane must pass
`yuvComponent`; names must be distinct and exactly the three components must
be present; `y` must have subsampling `(1,1)` and `u`,`v` equal subsampling.
Numbers `(luma, row1, row2)` come from `u`'s subsampling; when their maximum
is below 3 each is scaled by `x*4/m` (Python 2 integer floor division).  A
missing `y`/`u`/`v` key would raise KeyError in the source and a non-integer
luma (a float horizontal subsampling) is formatted by `%d`; both are `none`
here and unexercised by claims. -/
def makeYuvName (f : List PyVal) : Option String :=
  if f.length ≤ 1 then none
  else
    match optList yuvComponent f with
    | none => none
    | some comps =>
      let names := comps.map (fun c => c.1)
      if names.dedup.length ≠ names.length then none
      else if comps.length ≠ 3 then none
      else
        match List.lookup "y" comps, List.lookup "u" comps,
            List.lookup "v" comps with
        | some ysub, some usub, some vsub =>
          if !pyEq ysub (.tuple [.int 1, .int 1]) then none
          else if !pyEq usub vsub then none
          else
            match usub with
            | .tuple (l :: r2v :: _) =>
              match l with
              | .int lw =>
                let row2 : Int := if pyEq r2v (.int 1) then 1 else 0
                let m : Int := max lw (max 1 row2)
                let nums : List Int :=
                  if m < 3 then [lw, 1, row2].map (fun x => (x * 4).fdiv m)
                  else [lw, 1, row2]
                match names, nums with
                | [n1, n2, n3], [x1, x2, x3] =>
                  some (n1 ++ n2 ++ n3 ++ toString x1 ++ toString x2 ++
                    toString x3 ++ "p")
                | _, _ => none
              | _ => none
            | _ => none
        | _, _, _ => none

/-! ## Textual form (`PixelPlaneFormat.__repr__` and `str(self)`) -/

/-- Python `repr` of a span or subsampling number.  Ints are exact; the float
case would be Python's float repr, approximated here (it feeds only the
fallback textual form, whose output no claim inspects). -/
def numRepr : PyVal → String
  | .int n => toString n
  | .float q => toString q.num ++ "/" ++ toString q.den
  | _ => "?"

/-- Python `repr` of a subsampling tuple such as `(2, 2)`. -/
def subRepr : PyVal → String
  | .tuple xs =>
    "(" ++ String.intercalate ", " (xs.map numRepr) ++
      (if xs.length = 1 then ",)" else ")")
  | v => numRepr v

/-- Python `repr` of a fragment tuple list such as `((8, 8), (24, 8))`. -/
def fragsRepr (frs : List (Int × Int)) : String :=
  "(" ++ String.intercalate ", "
      (frs.map (fun fr => "(" ++ toString fr.1 ++ ", " ++ toString fr.2 ++ ")")) ++
    (if frs.length = 1 then ",)" else ")")

/-- One channel entry inside `PixelPlaneFormat.__repr__`. -/
def chRepr (e : String × List (Int × Int)) : String :=
  match e.2 with
  | [(0, w)] => "'" ++ e.1 ++ toString w ++ "'"
  | _ => "('" ++ e.1 ++ "', " ++ fragsRepr e.2 ++ ")"

/-- `PixelPlaneFormat.__repr__`: the derived name when there is one, else a
parenthesised literal omitting a span of 1 and a subsampling of `(1,1)`.
Malformed channel shapes (on which the source iteration would raise) render
as a placeholder; no claim inspects this output. -/
def planeRepr (p : PyVal) : String :=
  match planeName p with
  | some nm => "'" ++ nm ++ "'"
  | none =>
    match p with
    | .plane n channels sub =>
      let chsS :=
        match asChannelMap channels with
        | some chs =>
          let body := String.intercalate ", " (chs.map chRepr)
          if chs.length > 1 then "(" ++ body ++ ")" else body
        | none => "?"
      "(" ++ (if !pyEq n (.int 1) then numRepr n ++ ", " else "") ++ chsS ++
        (if !pyEq sub (.tuple [.int 1, .int 1]) then ", " ++ subRepr sub else "") ++
        ")"
    | _ => "?"

/-- `str(self)` on a `PixelFormat` (a tuple subclass): the tuple repr of the
plane reprs. -/
def strRepr (f : List PyVal) : String :=
  match f with
  | [] => "()"
  | [p] => "(" ++ planeRepr p ++ ",)"
  | _ => "(" ++ String.intercalate ", " (f.map planeRepr) ++ ")"

/-! ## Name derivation (`PixelFormat.name`) -/

/-- The registry reverse scan `for k, v in _named_formats.items(): if v ==
self: return k` (Python `==`, see `pyEq`; scan order is the dict order, on
which no claim depends because matches below are unique or absent). -/
def nameScan (reg : List (String × PyVal)) (f : List PyVal) : Option String :=
  (reg.find? (fun kv => pyEq kv.2 (.tuple f))).map (fun kv => kv.1)

/-- `PixelFormat.name`: registry scan, then YUV synthesis, then for a single
plane the plane's own name (which may be Python `None` — there is no further
fallback in that branch), then the concatenation of all plane names plus
`"p"`, then `str(self)`. -/
def pfName (reg : List (String × PyVal)) (f : List PyVal) : Option String :=
  match nameScan reg f with
  | some k => some k
  | none =>
    match makeYuvName f with
    | some s => some s
    | none =>
      match f with
      | [p] => planeName p
      | _ =>
        let pns := f.map planeName
        if pns.all (fun o => o.isSome) then
          some (String.join (pns.map (fun o => o.getD "")) ++ "p")
        else some (strRepr f)

/-! ## Auxiliary definitions used by the verification statements -/

/-- A single-channel 8-bit plane `(1, ((c, ((0, 8),)),), sub)` as produced by
parsing `'y8'`/`'u8'`/`'v8'` descriptions. -/
def yuvPlane (c : String) (sub : PyVal) : PyVal :=
  .plane (.int 1) (.tuple [.tuple [.str c, .tuple [.tuple [.int 0, .int 8]]]]) sub

/-- The family of 3-plane planar y8/u8/v8 formats eligible for YUV name
synthesis: full-resolution luma, u and v sharing the subsampling
`(h, vv)`. -/
def yuvTestFmt (h : Int) (vv : PyVal) : List PyVal :=
  [yuvPlane "y" (.tuple [.int 1, .int 1]),
   yuvPlane "u" (.tuple [.int h, vv]),
   yuvPlane "v" (.tuple [.int h, vv])]

/-- The normalised plane sequence of `yuv420p`. -/
def yuv420Planes : List PyVal :=
  [yuvPlane "y" (.tuple [.int 1, .int 1]),
   yuvPlane "u" (.tuple [.int 2, .int 2]),
   yuvPlane "v" (.tuple [.int 2, .int 2])]

/-- The single-plane format parsed from `('y8', (2, 2))`: span 1, one y
channel of 8 bits, subsampling `(2, 2)`. -/
def c1Fmt : List PyVal :=
  [PyVal.plane (.int 1) (chToVal [("y", [(0, 8)])]) (.tuple [.int 2, .int 2])]

/-- Fuel-driven helper for `specFullInterleaved` (fuel equal to the length of
the list suffices; structural recursion keeps it kernel-reducible). -/
def specFullInterleavedGo : Nat → List Char → Bool
  | 0, _ => false
  | _ + 1, [] => false
  | fuel + 1, a :: rest =>
    a.isAlpha &&
      (let ds := rest.takeWhile Char.isDigit
       !ds.isEmpty &&
         (let r := rest.drop ds.length
          r.isEmpty || specFullInterleavedGo fuel r))

/-- Modelled from the spec's words (claim C4): the full interleaved grammar as
the spec states it, the token "taken in its entirety" being a repetition of
letter/digit-run groups with no other characters. -/
def specFullInterleaved (s : List Char) : Bool :=
  specFullInterleavedGo s.length s

/-- Modelled from the spec's words (claim C4): the full grouped grammar, the
token in its entirety being a letter run followed by a digit run. -/
def specFullGrouped (s : List Char) : Bool :=
  let names := s.takeWhile Char.isAlpha
  let digits := (s.drop names.length).takeWhile Char.isDigit
  !names.isEmpty && !digits.isEmpty &&
    (s.drop (names.length + digits.length)).isEmpty

/-- Modelled from the claim's words (claim C2): scale the three YUV numbers by
`4/max` whenever the maximum is below 4 (read with the source's integer
division, the only reading that keeps the results integers). -/
def specC2Numbers (l r1 r2 : Int) : List Int :=
  let m : Int := max l (max r1 r2)
  if m < 4 then [l, r1, r2].map (fun x => (x * 4).fdiv m) else [l, r1, r2]

/-- The result string the claim prescribes for the three YUV numbers. -/
def specC2Name (l r1 r2 : Int) : String :=
  match specC2Numbers l r1 r2 with
  | [a, b, d] => "y" ++ "u" ++ "v" ++ toString a ++ toString b ++ toString d ++ "p"
  | _ => ""

/-! ## Helper lemmas -/

theorem pyEq_self (x : PyVal) : pyEq x x = true := by
  simp [pyEq]

theorem pyEq_true_iff (a b : PyVal) : pyEq a b = true ↔ canon a = canon b := by
  simp [pyEq]

theorem canonList_map (xs : List PyVal) : canonList xs = xs.map canon := by
  induction xs with
  | nil => simp [canonList]
  | cons x xs ih => simp [canonList, ih]

theorem asFrag_fragVal (fr : Int × Int) : asFrag (fragVal fr) = some fr := rfl

theorem asFrags_fragVals (frs : List (Int × Int)) :
    asFrags (.tuple (frs.map fragVal)) = some frs := by
  induction frs with
  | nil => rfl
  | cons fr frs ih =>
    simp only [asFrags, List.map_cons, optList, asFrag_fragVal] at *
    simp [ih]

theorem asChannelEntry_chEntryVal (e : String × List (Int × Int)) :
    asChannelEntry (chEntryVal e) = some e := by
  simp [asChannelEntry, chEntryVal, asFrags_fragVals]

theorem asChannelMap_chToVal (chs : CMap) :
    asChannelMap (chToVal chs) = some chs := by
  induction chs with
  | nil => rfl
  | cons e chs ih =>
    simp only [asChannelMap, chToVal, List.map_cons, optList,
      asChannelEntry_chEntryVal] at *
    simp [ih]

theorem sum_map_div (l : List ℚ) (d : ℚ) :
    (l.map (fun x => x / d)).sum = l.sum / d := by
  induction l with
  | nil => simp
  | cons x l ih => simp [ih, add_div]

theorem strNeverMatches (s : String) (f : List PyVal) :
    pyEq (.str s) (.tuple f) = false := by
  rw [pyEq]
  apply beq_eq_false_iff_ne.mpr
  intro hc
  exact CVal.noConfusion hc

theorem rawTupleNeverMatches (xs f : List PyVal) (x : PyVal) (hx : x ∈ xs)
    (hshape : (isIntV x || isStrV x) = true)
    (hf : ∀ p ∈ f, ∃ a b c, p = PyVal.plane a b c) :
    pyEq (.tuple xs) (.tuple f) = false := by
  rw [pyEq]
  apply beq_eq_false_iff_ne.mpr
  intro hc
  simp only [canon, canonList_map] at hc
  injection hc with hc
  have hmem : canon x ∈ f.map canon := hc ▸ List.mem_map_of_mem canon hx
  obtain ⟨p, hp, hcan⟩ := List.mem_map.mp hmem
  obtain ⟨a, b, c, rfl⟩ := hf p hp
  cases x <;> simp_all [canon, isIntV, isStrV]

theorem bpp_emitted (nv sxv syv : PyVal) (nq qx qy : ℚ)
    (hn : asNumV nv = some nq) (hx : asNumV sxv = some qx)
    (hy : asNumV syv = some qy) (l : List ((Int × Int) × String)) :
    bitsPerPixel (l.map (fun pr =>
      PyVal.plane nv (chToVal [(pr.2, [(0, pr.1.2)])]) (.tuple [sxv, syv]))) =
    some ((l.map (fun pr => ((pr.1.2 : Int) : ℚ) / (nq * (qx * qy)))).sum) := by
  induction l with
  | nil => simp [bitsPerPixel]
  | cons pr l ih =>
    have hpb : planeBitsData
        (PyVal.plane nv (chToVal [(pr.2, [(0, pr.1.2)])]) (.tuple [sxv, syv]))
        = some (((pr.1.2 : Int) : ℚ), nq * (qx * qy)) := by
      simp [planeBitsData, asChannelMap_chToVal, hn, hx, hy, cmapBits]
    simp [bitsPerPixel, hpb, ih]

theorem bpp_single (nv sxv syv : PyVal) (nq qx qy : ℚ) (chs : CMap)
    (hn : asNumV nv = some nq) (hx : asNumV sxv = some qx)
    (hy : asNumV syv = some qy) :
    bitsPerPixel [PyVal.plane nv (chToVal chs) (.tuple [sxv, syv])] =
      some (cmapBits chs / (nq * (qx * qy))) := by
  simp [bitsPerPixel, planeBitsData, asChannelMap_chToVal, hn, hx, hy]

theorem flat_pairs_sum (chs : CMap) :
    (((chs.map (fun e => e.2.map (fun fr => (fr, e.1)))).flatten).map
      (fun pr : (Int × Int) × String => ((pr.1.2 : Int) : ℚ))).sum = cmapBits chs := by
  induction chs with
  | nil => simp [cmapBits]
  | cons e chs ih =>
    simp only [List.map_cons, List.flatten_cons, List.map_append, List.sum_append,
      List.map_map, cmapBits, List.sum_cons] at *
    rw [← ih]
    congr 1

theorem flat_pairs_length (chs : CMap) :
    ((chs.map (fun e => e.2.map (fun fr => (fr, e.1)))).flatten).length =
      (chs.map (fun e => e.2.length)).sum := by
  induction chs with
  | nil => rfl
  | cons e chs ih => simp [ih]

/-! ## The claims -/

set_option maxRecDepth 16000

/-- C1: the claim says the `name` property always returns a string (the
canonical textual form being the ultimate fallback) with `parse(f.name) == f`.
The code disagrees: for the single-plane format parsed from `('y8', (2, 2))`
(span 1, subsampling (2, 2)) the `name` property returns Python `None` —
`name` returns `self[0].name` whenever `plane_count == 1`, so the `str(self)`
fallback is unreachable and a plane without a derivable name yields `None`,
contradicting `name`'s own docstring ("a normalized string identifier that is
accepted by `__new__()`"); `PixelFormat(None)` then raises
`MalformedPlaneFormat` instead of round-tripping. -/
theorem c1_single_plane_name_none :
    pfNew initialFormats (.tuple [.str "y8", .tuple [.int 2, .int 2]]) =
      .ok (c1Fmt, initialFormats) ∧
    planeCount c1Fmt = 1 ∧
    pfName initialFormats c1Fmt = none := by decide

/-- C2 counterexample: for the eligible y8/u8/v8 format with u/v subsampling
`(3, 1)` the three numbers are `(3, 1, 1)` with maximum 3, which the claim
("below 4") says is scaled by `4/max` to give `yuv411p`; the code's guard is
`m < 3`, so it emits the numbers unscaled as `yuv311p`. -/
theorem c2_max_three_not_scaled :
    makeYuvName (yuvTestFmt 3 (.int 1)) = some "yuv311p" ∧
    specC2Name 3 1 1 = "yuv411p" ∧
    ("yuv311p" : String) ≠ "yuv411p" := by decide

/-- C2 amended: in YUV name synthesis the numbers `(luma, 1, row2)` derived
from the chroma subsampling are scaled by `x*4/max` (Python 2 integer floor
division) exactly when their maximum is below 3 — i.e. max is 1 or 2, where
`4/max` is exact — and are used unscaled otherwise, in particular when the
maximum equals 3; the result is `"y"+"u"+"v"+luma+row1+row2+"p"`. -/
theorem c2_scaling_below_three (h : Int) (vv : PyVal) :
    makeYuvName (yuvTestFmt h vv) =
      (let row2 : Int := if pyEq vv (.int 1) then 1 else 0
       let m : Int := max h (max 1 row2)
       if m < 3 then
         some ("y" ++ "u" ++ "v" ++ toString ((h * 4).fdiv m) ++
           toString ((1 * 4 : Int).fdiv m) ++ toString ((row2 * 4).fdiv m) ++ "p")
       else
         some ("y" ++ "u" ++ "v" ++ toString h ++ toString (1 : Int) ++
           toString row2 ++ "p")) := by
  have e1 : strLower "y" = "y" := rfl
  have e2 : strLower "u" = "u" := rfl
  have e3 : strLower "v" = "v" := rfl
  have e4 : strIn "y" "yuv" = true := rfl
  have e5 : strIn "u" "yuv" = true := rfl
  have e6 : strIn "v" "yuv" = true := rfl
  have e7 : (["y", "u", "v"] : List String).dedup = ["y", "u", "v"] := by decide
  have e8 : ∀ A B C : PyVal, List.lookup "y" [("y", A), ("u", B), ("v", C)] = some A :=
    fun _ _ _ => rfl
  have e9 : ∀ A B C : PyVal, List.lookup "u" [("y", A), ("u", B), ("v", C)] = some B :=
    fun _ _ _ => rfl
  have e10 : ∀ A B C : PyVal, List.lookup "v" [("y", A), ("u", B), ("v", C)] = some C :=
    fun _ _ _ => rfl
  unfold makeYuvName yuvTestFmt
  simp only [List.length_cons, List.length_nil, optList, yuvComponent, yuvPlane,
    e1, e2, e3, e4, e5, e6, pyEq_self, Bool.not_true, Bool.false_eq_true, if_false,
    Bool.and_self, if_true, List.map_cons, List.map_nil, e7, e8, e9, e10,
    List.length_map]
  norm_num
  split_ifs <;> rfl

/-- C3: `yuv420p` is not a registry entry, yet the top-level parse succeeds by
YUV-shorthand reconstruction (leaving the registry untouched), with
`bits_per_pixel == 12`, `plane_count == 3` and `is_planar == True`. -/
theorem c3_yuv420p_reconstructed :
    List.lookup "yuv420p" initialFormats = none ∧
    pfNew initialFormats (.str "yuv420p") = .ok (yuv420Planes, initialFormats) ∧
    bitsPerPixel yuv420Planes = some 12 ∧
    planeCount yuv420Planes = 3 ∧
    isPlanar yuv420Planes = true := by
  refine ⟨by decide, by decide, ?_, by decide, by decide⟩
  simp [yuv420Planes, yuvPlane, bitsPerPixel, planeBitsData, asChannelMap,
    optList, asChannelEntry, asFrags, asFrag, asNumV, cmapBits]
  norm_num

/-- C4 counterexample: the token `"r8!"` matches neither spec grammar taken in
its entirety, so the claim says layout parsing fails; the code's
`re.match` is a prefix match and `findall` collects pairs from the whole
string, so parsing succeeds with the channel map of `"r8"`. -/
theorem c4_prefix_match_accepts_trailing_junk :
    specFullInterleaved "r8!".data = false ∧
    specFullGrouped "r8!".data = false ∧
    parseLayoutStr "r8!" = .ok [("r", [(0, 8)])] := by decide

/-- C4 amended: for a string token, layout parsing fails (with
`MalformedPlaneFormat` — the code has no separate `MalformedLayout` class)
exactly when the token does not begin with a letter-digit pair (interleaved
grammar, prefix match) and either the grouped prefix `<letters><digits>` does
not match or it matches with unequal letter/digit run lengths; otherwise a
channel map is returned.  Matching is prefix-based, not whole-token. -/
theorem c4_layout_error_iff_prefix_grammars_fail (s : String) :
    parseLayoutStr s = .error () ↔
      pat1Match s.data = false ∧
        (pat2Match s.data = none ∨
          ∃ nm dg, pat2Match s.data = some (nm, dg) ∧ nm.length ≠ dg.length) := by
  unfold parseLayoutStr
  rcases h1 : pat1Match s.data
  · rcases h2 : pat2Match s.data with _ | ⟨nm, dg⟩
    · simp
    · by_cases hl : nm.length = dg.length
      · simp [hl]
      · simp [hl]
        exact ⟨nm, dg, ⟨rfl, rfl⟩, hl⟩
  · simp

/-- C5 counterexample: two `PixelPlaneFormat` values that differ only in the
order of their channel entries (the same two channels, reversed) are unequal —
the channel map is stored as `tuple(d.items())` and namedtuple equality is
plain tuple equality, so entry order matters, contrary to the claim. -/
theorem c5_channel_order_affects_equality :
    pyEq
      (.plane (.int 1)
        (.tuple [chEntryVal ("r", [(0, 8)]), chEntryVal ("g", [(8, 8)])])
        (.tuple [.int 1, .int 1]))
      (.plane (.int 1)
        (.tuple [chEntryVal ("g", [(8, 8)]), chEntryVal ("r", [(0, 8)])])
        (.tuple [.int 1, .int 1])) = false ∧
    [chEntryVal ("g", [(8, 8)]), chEntryVal ("r", [(0, 8)])] =
      [chEntryVal ("r", [(0, 8)]), chEntryVal ("g", [(8, 8)])].reverse := by decide

/-- C5 amended: two `PixelPlaneFormat` values are equal iff their span,
channel tuple and subsampling are equal under Python `==`, where the channel
map is compared as the stored ordered tuple of entries — the order of channel
entries does affect equality. -/
theorem c5_plane_equality_structural (a b c d e f : PyVal) :
    pyEq (.plane a b c) (.plane d e f) = (pyEq a d && pyEq b e && pyEq c f) := by
  simp only [pyEq, canon]
  rw [Bool.eq_iff_iff]
  simp only [beq_iff_eq, Bool.and_eq_true]
  constructor
  · intro hh
    injection hh with hh
    simp only [List.cons.injEq, and_true] at hh
    exact ⟨⟨hh.1, hh.2.1⟩, hh.2.2⟩
  · rintro ⟨⟨h1, h2⟩, h3⟩
    rw [h1, h2, h3]

/-- C6: the claim says a YUV shorthand with second-row chroma count neither 0
nor equal to the first-row count fails with an explicit "unsupported" failure.
The code's failure path is `raise NotImplemented(...)`: `NotImplemented` is
not an exception class and not callable, so Python raises a TypeError at that
line instead of the intended NotImplementedError.  The failure does occur and
does propagate (nothing catches it), and the good rows behave as claimed:
`d3 == 0` gives vertical subsampling 2, `d3 == d2` gives 1, horizontal is
`d1/d2`. -/
theorem c6_unsupported_yuv_ratio_type_error :
    pfNew initialFormats (.str "yuv421") = .error .typeErrorNotCallable ∧
    parseYuvName "yuv421" = .error .typeErrorNotCallable ∧
    PErr.typeErrorNotCallable ≠ PErr.malformed ∧
    parseYuvName "yuv420" = .ok (some (.tuple [.str "y8",
      .tuple [.str "u8", .tuple [.int 2, .int 2]],
      .tuple [.str "v8", .tuple [.int 2, .int 2]]])) ∧
    parseYuvName "yuv422" = .ok (some (.tuple [.str "y8",
      .tuple [.str "u8", .tuple [.int 2, .int 1]],
      .tuple [.str "v8", .tuple [.int 2, .int 1]]])) ∧
    parseYuvName "yuv411" = .ok (some (.tuple [.str "y8",
      .tuple [.str "u8", .tuple [.int 4, .int 1]],
      .tuple [.str "v8", .tuple [.int 4, .int 1]]])) := by decide

/-- C7: for every single-plane format (span `n`, a well-formed channel map,
numeric subsampling pair), the planar explosion succeeds, preserves
`bits_per_pixel`, emits exactly one plane per channel fragment (a plane with N
fragments explodes to exactly N planes), and every emitted plane keeps the
original span and subsampling with its channel re-based to offset 0 at its
original width. -/
theorem c7_make_planar_conserves_bits (n : Int) (sxv syv : PyVal) (qx qy : ℚ)
    (chs : CMap) (hx : asNumV sxv = some qx) (hy : asNumV syv = some qy) :
    ∃ ps, makePlanar [PyVal.plane (.int n) (chToVal chs) (.tuple [sxv, syv])] = some ps ∧
      bitsPerPixel ps =
        bitsPerPixel [PyVal.plane (.int n) (chToVal chs) (.tuple [sxv, syv])] ∧
      ps.length = (chs.map (fun e => e.2.length)).sum ∧
      ∀ q ∈ ps, ∃ e ∈ chs, ∃ fr ∈ e.2,
        q = PyVal.plane (.int n) (chToVal [(e.1, [(0, fr.2)])]) (.tuple [sxv, syv]) := by
  have hn : asNumV (.int n) = some ((n : Int) : ℚ) := rfl
  have hperm : (List.insertionSort (fun a b => pairLe a b = true)
        ((chs.map (fun e => e.2.map (fun fr => (fr, e.1)))).flatten)).Perm
      ((chs.map (fun e => e.2.map (fun fr => (fr, e.1)))).flatten) :=
    List.perm_insertionSort _ _
  refine ⟨(List.insertionSort (fun a b => pairLe a b = true)
      ((chs.map (fun e => e.2.map (fun fr => (fr, e.1)))).flatten)).map
      (fun pr => PyVal.plane (.int n) (chToVal [(pr.2, [(0, pr.1.2)])])
        (.tuple [sxv, syv])), ?_, ?_, ?_, ?_⟩
  · simp [makePlanar, asChannelMap_chToVal]
  · rw [bpp_emitted _ _ _ _ _ _ hn hx hy, bpp_single _ _ _ _ _ _ chs hn hx hy]
    congr 1
    rw [(hperm.map (fun pr : (Int × Int) × String =>
      ((pr.1.2 : Int) : ℚ) / ((n : ℚ) * (qx * qy)))).sum_eq]
    rw [show ((chs.map (fun e => e.2.map (fun fr => (fr, e.1)))).flatten.map
        (fun pr : (Int × Int) × String => ((pr.1.2 : Int) : ℚ) / ((n : ℚ) * (qx * qy))))
      = ((chs.map (fun e => e.2.map (fun fr => (fr, e.1)))).flatten.map
        (fun pr : (Int × Int) × String => ((pr.1.2 : Int) : ℚ))).map
          (fun x => x / ((n : ℚ) * (qx * qy))) from by rw [List.map_map]; rfl]
    rw [sum_map_div, flat_pairs_sum]
  · simp only [List.length_map, hperm.length_eq]
    exact flat_pairs_length chs
  · intro q hq
    obtain ⟨pr, hpr, rfl⟩ := List.mem_map.mp hq
    have hpp : pr ∈ (chs.map (fun e => e.2.map (fun fr => (fr, e.1)))).flatten :=
      hperm.mem_iff.mp hpr
    obtain ⟨lsub, hlsub, hprl⟩ := List.mem_flatten.mp hpp
    obtain ⟨e, he, rfl⟩ := List.mem_map.mp hlsub
    obtain ⟨fr, hfr, rfl⟩ := List.mem_map.mp hprl
    exact ⟨e, he, fr, hfr, rfl⟩

/-- C7 witness: the explosion of the packed two-channel plane `r8g8`. -/
theorem c7_make_planar_conserves_bits_witness :
    ∃ ps, makePlanar [PyVal.plane (.int 1)
        (chToVal [("r", [(0, 8)]), ("g", [(8, 8)])])
        (.tuple [.int 1, .int 1])] = some ps ∧
      bitsPerPixel ps =
        bitsPerPixel [PyVal.plane (.int 1)
          (chToVal [("r", [(0, 8)]), ("g", [(8, 8)])])
          (.tuple [.int 1, .int 1])] ∧
      ps.length = (([("r", [(0, 8)]), ("g", [(8, 8)])] : CMap).map
        (fun e => e.2.length)).sum ∧
      ∀ q ∈ ps, ∃ e ∈ ([("r", [(0, 8)]), ("g", [(8, 8)])] : CMap), ∃ fr ∈ e.2,
        q = PyVal.plane (.int 1) (chToVal [(e.1, [(0, fr.2)])])
          (.tuple [.int 1, .int 1]) :=
  c7_make_planar_conserves_bits 1 (.int 1) (.int 1) ((1 : Int) : ℚ) ((1 : Int) : ℚ)
    [("r", [(0, 8)]), ("g", [(8, 8)])] rfl rfl

/-- C8: constructing a `PixelFormat` from a name present in the registry
parses the stored description and rewrites that entry in place with the
normalised plane tuple; a second construction from the same name returns the
same format and leaves the registry unchanged (normalisation is observably
performed once), and the set of registry keys never changes. -/
theorem c8_registry_normalized_once :
    ∀ k ∈ initialFormats.map Prod.fst,
      (match pfNew initialFormats (.str k) with
       | .ok (ps, r1) =>
         decide (pfNew r1 (.str k) = .ok (ps, r1)) &&
         decide (r1.map Prod.fst = initialFormats.map Prod.fst) &&
         decide (List.lookup k r1 = some (.tuple ps))
       | .error _ => false) = true := by decide

/-- C8 witness: the registry name `"rgb"`. -/
theorem c8_registry_normalized_once_witness :
    (match pfNew initialFormats (.str "rgb") with
     | .ok (ps, r1) =>
       decide (pfNew r1 (.str "rgb") = .ok (ps, r1)) &&
       decide (r1.map Prod.fst = initialFormats.map Prod.fst) &&
       decide (List.lookup "rgb" r1 = some (.tuple ps))
     | .error _ => false) = true :=
  c8_registry_normalized_once "rgb" (by decide)

/-- C9: while the registry still holds its raw string/tuple descriptions, the
reverse scan inside the `name` property never matches any `PixelFormat` (a
tuple of `PixelPlaneFormat` values), so `name` falls through to YUV synthesis,
generic derivation or the textual fallback; once a `PixelFormat` has been
constructed from a registry name — normalising that entry in place — the
`name` of the resulting format is that registry key. -/
theorem c9_raw_entries_never_match_scan :
    (∀ f : List PyVal, (∀ p ∈ f, ∃ a b c, p = PyVal.plane a b c) →
      nameScan initialFormats f = none) ∧
    (∀ k ∈ initialFormats.map Prod.fst,
      (match pfNew initialFormats (.str k) with
       | .ok (ps, r1) => decide (pfName r1 ps = some k)
       | .error _ => false) = true) := by
  constructor
  · intro f hf
    have hfind : List.find? (fun kv => pyEq kv.2 (.tuple f)) initialFormats = none := by
      rw [List.find?_eq_none]
      intro kv hkv
      simp only [initialFormats, List.mem_cons, List.not_mem_nil, or_false] at hkv
      rcases hkv with rfl | rfl | rfl | rfl | rfl | rfl | rfl | rfl | rfl | rfl | rfl | rfl | rfl
      · simp [strNeverMatches]
      · simp [strNeverMatches]
      · simp [strNeverMatches]
      · simp [strNeverMatches]
      · simp [strNeverMatches]
      · simp [strNeverMatches]
      · simp [strNeverMatches]
      · simp [rawTupleNeverMatches [PyVal.int 2, PyVal.str "u8y8v8y8"] f
          (PyVal.int 2) (List.mem_cons_self _ _) rfl hf]
      · simp [rawTupleNeverMatches [PyVal.int 2, PyVal.str "y8u8y8v8"] f
          (PyVal.int 2) (List.mem_cons_self _ _) rfl hf]
      · simp [rawTupleNeverMatches [PyVal.int 4, PyVal.str "u8y8y8v8y8y8"] f
          (PyVal.int 4) (List.mem_cons_self _ _) rfl hf]
      · simp [rawTupleNeverMatches [PyVal.str "y8",
          PyVal.tuple [PyVal.str "u8", PyVal.tuple [PyVal.int 2, PyVal.int 2]],
          PyVal.tuple [PyVal.str "v8", PyVal.tuple [PyVal.int 2, PyVal.int 2]],
          PyVal.str "a8"] f (PyVal.str "y8") (List.mem_cons_self _ _) rfl hf]
      · simp [rawTupleNeverMatches [PyVal.str "y8",
          PyVal.tuple [PyVal.str "u8v8", PyVal.tuple [PyVal.int 2, PyVal.int 2]]] f
          (PyVal.str "y8") (List.mem_cons_self _ _) rfl hf]
      · simp [rawTupleNeverMatches [PyVal.str "y8",
          PyVal.tuple [PyVal.str "v8u8", PyVal.tuple [PyVal.int 2, PyVal.int 2]]] f
          (PyVal.str "y8") (List.mem_cons_self _ _) rfl hf]
    simp [nameScan, hfind]
  · decide

/-- C9 witness: no raw entry matches a one-plane format, and constructing
`"rgb"` makes its `name` resolve to the registry key. -/
theorem c9_raw_entries_never_match_scan_witness :
    nameScan initialFormats
      [PyVal.plane (.int 1) (.int 2) (.int 3)] = none ∧
    (match pfNew initialFormats (.str "rgb") with
     | .ok (ps, r1) => decide (pfName r1 ps = some "rgb")
     | .error _ => false) = true :=
  ⟨c9_raw_entries_never_match_scan.1 _
      (by
        intro p hp
        rw [List.mem_singleton] at hp
        exact ⟨_, _, _, hp⟩),
    c9_raw_entries_never_match_scan.2 "rgb" (by decide)⟩

/-- C10: a layout given as a tuple is accepted verbatim with no validation:
for every integer span, arbitrary tuple in the layout position and 2-element
subsampling tuple, `from_description` succeeds and stores the layout tuple
unchanged as the channel map. -/
theorem c10_tuple_layout_verbatim (n : Int) (ts ss : List PyVal)
    (h : ss.length = 2) :
    fromDescription (.tuple [.int n, .tuple ts, .tuple ss]) =
      .ok (.plane (.int n) (.tuple ts) (.tuple ss)) := by
  obtain ⟨a, b, rfl⟩ := List.length_eq_two.mp h
  rfl

/-- C10 witness: a junk layout tuple `(7,)` with a non-numeric subsampling
pair is stored unchanged. -/
theorem c10_tuple_layout_verbatim_witness :
    fromDescription (.tuple [.int 5, .tuple [.int 7],
        .tuple [.str "a", .str "b"]]) =
      .ok (.plane (.int 5) (.tuple [.int 7]) (.tuple [.str "a", .str "b"])) :=
  c10_tuple_layout_verbatim 5 [.int 7] [.str "a", .str "b"] rfl
